import Mathlib

/-!
# Verification of the freelan logging binding (`pyfreelan/api/log.py`)

This file embeds the log-entry marshalling layer of the freelan Python
binding into Lean 4 and proves properties about it.

Modelling conventions:
* Python 2 byte strings (`str`) are `List Nat` with each element `< 256`;
  Python 2 `unicode` strings are `List Nat` of Unicode code points.
* The cffi/native layer is observed through a trace of native calls
  (`NCall`) and through the state recorded on a native log entry
  (`LogEntry`).  The native logging subsystem itself is not part of the
  excerpted source; where its behaviour matters it is modelled from the
  spec (see the doc comments marked "Modelled from the spec").
* A Python function that can raise is embedded as returning
  `Except PyError _`; an exception that propagates to the caller is the
  `.error` case.
* IEEE doubles are carried opaquely (`float` payloads hold an abstract
  bit pattern, a `Nat`): the marshalling layer never computes with the
  number, it only stores and re-reads it.
-/

/-- A Python exception, as far as this layer distinguishes them. -/
inductive PyError where
  | typeError (msg : String)
  | valueError
  | unicodeDecodeError
  deriving DecidableEq, Repr

/-- The Python 2 values that can reach the marshalling layer: byte
strings (`str`), text strings (`unicode`), integers, booleans, floats
(opaque IEEE bit pattern) and `None` as the representative unsupported
value. -/
inductive PyValue where
  | str (bytes : List Nat)
  | unicode (codepoints : List Nat)
  | int (n : Int)
  | bool (b : Bool)
  | float (bits : Nat)
  | none
  deriving DecidableEq, Repr

namespace PyValue

/-- Python's `isinstance(v, str)` on the modelled values. -/
def isinstance_str : PyValue → Bool
  | .str _ => true
  | _ => false

/-- Python's `isinstance(v, unicode)` on the modelled values. -/
def isinstance_unicode : PyValue → Bool
  | .unicode _ => true
  | _ => false

/-- Python's `isinstance(v, bool)` on the modelled values. -/
def isinstance_bool : PyValue → Bool
  | .bool _ => true
  | _ => false

/-- Python's `isinstance(v, int)` on the modelled values.  In Python 2,
`bool` is a subclass of `int`, so booleans satisfy this check too. -/
def isinstance_int : PyValue → Bool
  | .int _ => true
  | .bool _ => true
  | _ => false

/-- Python's `isinstance(v, float)` on the modelled values. -/
def isinstance_float : PyValue → Bool
  | .float _ => true
  | _ => false

/-- The bytes of a `str` value (unused default for other variants). -/
def strVal : PyValue → List Nat
  | .str b => b
  | _ => []

/-- The code points of a `unicode` value (unused default otherwise). -/
def unicodeVal : PyValue → List Nat
  | .unicode s => s
  | _ => []

/-- The numeric value of an `int` (booleans coerce as in Python). -/
def intVal : PyValue → Int
  | .int n => n
  | .bool b => if b then 1 else 0
  | _ => 0

/-- The value of a `bool` (unused default otherwise). -/
def boolVal : PyValue → Bool
  | .bool b => b
  | _ => false

/-- The bit pattern of a `float` (unused default otherwise). -/
def floatVal : PyValue → Nat
  | .float x => x
  | _ => 0

end PyValue

/-! ## UTF-8 codec

Python's `unicode.encode('utf-8')` and `str.decode('utf-8')` as used by
`log_attach` and `from_native_payload`.  The Python 2 codec encodes and
decodes all code points below `0x110000` (including surrogates) and
rejects overlong sequences, stray continuation bytes and code points
beyond `0x10FFFF`. -/

/-- UTF-8 encoding of a single code point (`< 0x110000`). -/
def utf8EncodeChar (c : Nat) : List Nat :=
  if c < 0x80 then
    [c]
  else if c < 0x800 then
    [0xC0 + c / 0x40, 0x80 + c % 0x40]
  else if c < 0x10000 then
    [0xE0 + c / 0x1000, 0x80 + (c / 0x40) % 0x40, 0x80 + c % 0x40]
  else
    [0xF0 + c / 0x40000, 0x80 + (c / 0x1000) % 0x40,
     0x80 + (c / 0x40) % 0x40, 0x80 + c % 0x40]

/-- UTF-8 encoding of a sequence of code points. -/
def utf8Encode : List Nat → List Nat
  | [] => []
  | c :: cs => utf8EncodeChar c ++ utf8Encode cs

/-- Is `b` a UTF-8 continuation byte? -/
def utf8Cont (b : Nat) : Bool :=
  0x80 ≤ b && b < 0xC0

/-- Decode a two-byte sequence with lead byte `b0` (`0xC0 ≤ b0 < 0xE0`)
and remaining input `r0`: the code point and the rest of the input, or
`none` on a truncated/invalid/overlong sequence. -/
def utf8DecodeTwo (b0 : Nat) : List Nat → Option (Nat × List Nat)
  | b1 :: r1 =>
    if utf8Cont b1 then
      if 0x80 ≤ (b0 - 0xC0) * 0x40 + (b1 - 0x80) then
        some ((b0 - 0xC0) * 0x40 + (b1 - 0x80), r1)
      else none
    else none
  | [] => none

/-- Decode a three-byte sequence with lead byte `b0`
(`0xE0 ≤ b0 < 0xF0`). -/
def utf8DecodeThree (b0 : Nat) : List Nat → Option (Nat × List Nat)
  | b1 :: b2 :: r2 =>
    if utf8Cont b1 && utf8Cont b2 then
      if 0x800 ≤ (b0 - 0xE0) * 0x1000 + (b1 - 0x80) * 0x40 + (b2 - 0x80) then
        some ((b0 - 0xE0) * 0x1000 + (b1 - 0x80) * 0x40 + (b2 - 0x80), r2)
      else none
    else none
  | _ => none

/-- Decode a four-byte sequence with lead byte `b0`
(`0xF0 ≤ b0 < 0xF8`). -/
def utf8DecodeFour (b0 : Nat) : List Nat → Option (Nat × List Nat)
  | b1 :: b2 :: b3 :: r3 =>
    if utf8Cont b1 && utf8Cont b2 && utf8Cont b3 then
      if 0x10000 ≤ (b0 - 0xF0) * 0x40000 + (b1 - 0x80) * 0x1000 +
          (b2 - 0x80) * 0x40 + (b3 - 0x80) ∧
          (b0 - 0xF0) * 0x40000 + (b1 - 0x80) * 0x1000 +
          (b2 - 0x80) * 0x40 + (b3 - 0x80) < 0x110000 then
        some ((b0 - 0xF0) * 0x40000 + (b1 - 0x80) * 0x1000 +
          (b2 - 0x80) * 0x40 + (b3 - 0x80), r3)
      else none
    else none
  | _ => none

/-- Decode one UTF-8 code point from the front of the input: the code
point and the remaining bytes, or `none` if the input is empty or does
not start with a valid sequence. -/
def utf8DecodeOne : List Nat → Option (Nat × List Nat)
  | [] => none
  | b0 :: r0 =>
    if b0 < 0x80 then some (b0, r0)
    else if b0 < 0xC0 then none
    else if b0 < 0xE0 then utf8DecodeTwo b0 r0
    else if b0 < 0xF0 then utf8DecodeThree b0 r0
    else if b0 < 0xF8 then utf8DecodeFour b0 r0
    else none

/-- The decoding loop: repeatedly take one code point off the front.
`fuel` bounds the number of iterations; one byte is consumed per
iteration at minimum, so `fuel = l.length` always suffices (the `fuel =
0` case on non-empty input is unreachable from `utf8Decode`). -/
def utf8DecodeLoop : Nat → List Nat → Option (List Nat)
  | _, [] => some []
  | 0, _ :: _ => none
  | fuel + 1, b0 :: r0 =>
    match utf8DecodeOne (b0 :: r0) with
    | some (c, rest) => (utf8DecodeLoop fuel rest).map (c :: ·)
    | none => none

/-- UTF-8 decoding of a byte sequence; `none` is the
`UnicodeDecodeError` case. -/
def utf8Decode (l : List Nat) : Option (List Nat) :=
  utf8DecodeLoop l.length l

/-! ## Native layer model -/

/-- Modelled from the spec: the native payload type tag for strings.
The numeric values of the four tags are not part of the excerpt; only
their distinctness matters to the binding. -/
def FREELAN_LOG_PAYLOAD_TYPE_STRING : Nat := 0

/-- Modelled from the spec: the native payload type tag for integers. -/
def FREELAN_LOG_PAYLOAD_TYPE_INTEGER : Nat := 1

/-- Modelled from the spec: the native payload type tag for floats. -/
def FREELAN_LOG_PAYLOAD_TYPE_FLOAT : Nat := 2

/-- Modelled from the spec: the native payload type tag for booleans. -/
def FREELAN_LOG_PAYLOAD_TYPE_BOOLEAN : Nat := 3

/-- The value union of a native payload struct.  `as_boolean` is the C
integer the cffi layer stores for a Python bool. -/
inductive NativeUnion where
  | as_string (bytes : List Nat)
  | as_integer (n : Int)
  | as_float (bits : Nat)
  | as_boolean (n : Int)
  deriving DecidableEq, Repr

/-- A native `struct FreeLANLogPayload`: key (NUL-free C string bytes),
type tag, and value union. -/
structure NativePayload where
  key : List Nat
  type : Nat
  value : NativeUnion
  deriving DecidableEq, Repr

/-- A native log entry in progress.  `payloads` is what
`freelan_log_attach` has recorded on the entry so far; `owned_pointers`
is the Python-side list of string buffers kept alive until the entry is
completed. -/
structure LogEntry where
  level : Nat
  payloads : List NativePayload
  owned_pointers : List (List Nat)
  deriving DecidableEq, Repr

/-- One native call issued by the binding, as observed at the cffi
boundary. -/
inductive NCall where
  | log (level : Nat) (ts : ℚ) (domain code : List Nat)
      (payloadCount : Nat) (file : Option (List Nat)) (line : Nat)
  | log_start (level : Nat) (ts : ℚ) (domain code : List Nat)
      (file : Option (List Nat)) (line : Nat)
  | log_attach (key : List Nat) (tag : Nat) (value : NativeUnion)
  | log_complete
  | set_logging_callback (active : Bool)
  deriving DecidableEq, Repr

/-- Modelled from the spec: the observable behaviour of the native
logging subsystem — whether a logging callback is registered and which
severity levels the active filter accepts. -/
structure NativeState where
  callbackActive : Bool
  levelAccepted : Nat → Bool

/-- Modelled from the spec: `freelan_log` returns nonzero iff a logging
callback is active and the severity passes the active filter. -/
def freelan_log (ns : NativeState) (level : Nat) : Int :=
  if ns.callbackActive && ns.levelAccepted level then 1 else 0

/-- Modelled from the spec: `freelan_log_complete` transmits the entry
and returns nonzero iff a logging callback is active and the entry's
severity passes the active filter. -/
def freelan_log_complete (ns : NativeState) (e : LogEntry) : Int :=
  if ns.callbackActive && ns.levelAccepted e.level then 1 else 0

/-! ## `log_attach` -/

open PyValue in
/-- `log_attach(entry, key, value)` from `pyfreelan/api/log.py`:
normalizes a `unicode` key to its UTF-8 bytes, requires the key to be a
`str`, normalizes a `unicode` value to its UTF-8 bytes, then attaches
the value with the type tag matching its Python type — `str` first
(allocating an owned buffer), then `bool` (before `int`, since Python
bools are ints), then `int`, then `float`; anything else raises
`TypeError`.  Returns the updated entry and the native calls issued. -/
def log_attach (e : LogEntry) (key value : PyValue) :
    Except PyError (LogEntry × List NCall) :=
  let key := if isinstance_unicode key then
    PyValue.str (utf8Encode key.unicodeVal) else key
  if isinstance_str key then
    let kb := key.strVal
    let value := if isinstance_unicode value then
      PyValue.str (utf8Encode value.unicodeVal) else value
    if isinstance_str value then
      let sv := value.strVal
      let p : NativePayload :=
        ⟨kb, FREELAN_LOG_PAYLOAD_TYPE_STRING, .as_string sv⟩
      .ok ({ e with
              payloads := e.payloads ++ [p],
              owned_pointers := e.owned_pointers ++ [sv] },
           [NCall.log_attach kb FREELAN_LOG_PAYLOAD_TYPE_STRING (.as_string sv)])
    else if isinstance_bool value then
      let bv : Int := if value.boolVal then 1 else 0
      let p : NativePayload :=
        ⟨kb, FREELAN_LOG_PAYLOAD_TYPE_BOOLEAN, .as_boolean bv⟩
      .ok ({ e with payloads := e.payloads ++ [p] },
           [NCall.log_attach kb FREELAN_LOG_PAYLOAD_TYPE_BOOLEAN (.as_boolean bv)])
    else if isinstance_int value then
      let p : NativePayload :=
        ⟨kb, FREELAN_LOG_PAYLOAD_TYPE_INTEGER, .as_integer value.intVal⟩
      .ok ({ e with payloads := e.payloads ++ [p] },
           [NCall.log_attach kb FREELAN_LOG_PAYLOAD_TYPE_INTEGER (.as_integer value.intVal)])
    else if isinstance_float value then
      let p : NativePayload :=
        ⟨kb, FREELAN_LOG_PAYLOAD_TYPE_FLOAT, .as_float value.floatVal⟩
      .ok ({ e with payloads := e.payloads ++ [p] },
           [NCall.log_attach kb FREELAN_LOG_PAYLOAD_TYPE_FLOAT (.as_float value.floatVal)])
    else
      .error (.typeError
        "value must be either a string, an integer, a float or a boolean value")
  else
    .error (.typeError "key must be a string")

/-- Does `key` pass `log_attach`'s key check (i.e. is it text)? -/
def textKey (key : PyValue) : Bool :=
  key.isinstance_str || key.isinstance_unicode

/-- Does `value` have one of the four supported payload types? -/
def supportedValue (v : PyValue) : Bool :=
  v.isinstance_str || v.isinstance_unicode || v.isinstance_bool ||
    v.isinstance_int || v.isinstance_float

/-! ## `log` -/

/-- The `for key, value in payload.iteritems(): log_attach(...)` loop of
`log`, run under the `try` block: attaches pairs in order until one
raises, returning the entry and trace at that point together with the
in-flight exception (if any). -/
def attachAll (e : LogEntry) :
    List (PyValue × PyValue) → LogEntry × List NCall × Option PyError
  | [] => (e, [], none)
  | (k, v) :: rest =>
    match log_attach e k v with
    | .ok (e1, calls) =>
      let r := attachAll e1 rest
      (r.1, calls ++ r.2.1, r.2.2)
    | .error err => (e, [], some err)

/-- The `file` argument `log` passes to `freelan_log_start`: NULL when
the Python value is `None` or falsy (the empty string). -/
def startFile (file : Option (List Nat)) : Option (List Nat) :=
  match file with
  | some (b :: bs) => some (b :: bs)
  | _ => none

/-- The `line` argument `log` passes to `freelan_log_start`: the given
line only when `file` is truthy (present and non-empty), else 0. -/
def startLine (file : Option (List Nat)) (line : Nat) : Nat :=
  match file with
  | some (_ :: _) => line
  | _ => 0

/-- `log(level, timestamp, domain, code, payload, file, line)` from
`pyfreelan/api/log.py`.  `payload = none` is Python `None`; `file =
none` is Python `None` (becoming `ffi.NULL`).  With an empty or absent
payload it issues one single-shot `freelan_log` call; otherwise it
starts a native entry, attaches each pair inside a `try` block, and the
`finally: return native.freelan_log_complete(entry) != 0` always
completes the entry and — because the `finally` block returns — discards
any in-flight exception from the attach loop.  The result is the boolean
return value together with the trace of native calls. -/
def log (ns : NativeState) (level : Nat) (ts : ℚ) (domain code : List Nat)
    (payload : Option (List (PyValue × PyValue)))
    (file : Option (List Nat)) (line : Nat) :
    Except PyError (Bool × List NCall) :=
  let line := if file = none then 0 else line
  match payload with
  | none =>
    .ok (freelan_log ns level ≠ 0,
      [NCall.log level ts domain code 0 file line])
  | some [] =>
    .ok (freelan_log ns level ≠ 0,
      [NCall.log level ts domain code 0 file line])
  | some (p :: ps) =>
    let entry0 : LogEntry := ⟨level, [], []⟩
    let r := attachAll entry0 (p :: ps)
    .ok (freelan_log_complete ns r.1 ≠ 0,
      NCall.log_start level ts domain code (startFile file) (startLine file line)
        :: r.2.1 ++ [NCall.log_complete])

/-! ## Timestamps

`utc_datetime_to_utc_timestamp` and `utc_timestamp_to_utc_datetime`.  A
UTC `datetime` is modelled by its microsecond count since the
1970-01-01 epoch (datetimes have microsecond resolution); a timestamp
is a Python float, an IEEE binary64 value, whose value set is modelled
exactly inside `ℚ`: every float operation the two helpers perform is a
correctly rounded binary64 operation, modelled by applying
`roundDouble` — round to nearest, ties to even, at 53 significant bits
— to the exact rational result.  The binary64 exponent range is not
modelled: over the datetime range (|seconds| < 2^38) no overflow,
underflow or subnormal arises, so the 53-bit significand is the only
source of rounding. -/

/-- Round a rational to an integer, ties to even — the IEEE-754 default
tie-breaking rule. -/
def roundNearestEven (x : ℚ) : ℤ :=
  if x - ⌊x⌋ < 1 / 2 then ⌊x⌋
  else if 1 / 2 < x - ⌊x⌋ then ⌊x⌋ + 1
  else if 2 ∣ ⌊x⌋ then ⌊x⌋ else ⌊x⌋ + 1

/-- The correctly rounded binary64 (double) value of an exact rational:
round to nearest, ties to even, keeping 53 significant bits.  Every
float operation below is modelled as `roundDouble` of the exact
result. -/
def roundDouble (q : ℚ) : ℚ :=
  if q = 0 then 0
  else
    (if q < 0 then -1 else 1) *
      (roundNearestEven (|q| / 2 ^ (Int.log 2 |q| - 52)) : ℚ) *
      2 ^ (Int.log 2 |q| - 52)

/-- `q` is exactly representable as a binary64 value (53-bit
significand; exponent range irrelevant in the datetime range): an
integer multiple of a power of two with the multiplier at most 2^53 in
magnitude. -/
def IsRepr (q : ℚ) : Prop :=
  ∃ m e : ℤ, q = (m : ℚ) * 2 ^ e ∧ m.natAbs ≤ 2 ^ 53

/-- The C cast `(time_t)x` of a double: truncation toward zero. -/
def ratTrunc (q : ℚ) : ℤ :=
  if 0 ≤ q then ⌊q⌋ else ⌈q⌉

/-- CPython's `round_to_long` (datetimemodule.c): `floor(x + 0.5)` for
nonnegative `x`, `ceil(x - 0.5)` otherwise, the addition and
subtraction being float operations; `floor`/`ceil` and the final
integer cast are exact. -/
def round_to_long (x : ℚ) : ℤ :=
  if 0 ≤ x then ⌊roundDouble (x + 1 / 2)⌋ else ⌈roundDouble (x - 1 / 2)⌉

/-- `utc_datetime_to_utc_timestamp(dt)`: `(dt - datetime(1970, 1,
1)).total_seconds()`.  The timedelta subtraction is exact integer
arithmetic on (days, seconds, microseconds); `total_seconds` divides
the exact total microsecond count by 10^6 with true division, whose
float result is the correctly rounded double of the exact quotient. -/
def utc_datetime_to_utc_timestamp (dt : Int) : ℚ :=
  roundDouble ((dt : ℚ) / 1000000)

/-- `utc_timestamp_to_utc_datetime(ts)`: `datetime.utcfromtimestamp(ts)`
per CPython 2.7's `datetime_from_timestamp`: truncate to `timet`,
compute `fraction = timestamp - (double)timet` in float arithmetic
(the int-to-double cast itself rounding), take
`us = round_to_long(fraction * 1e6)` with a float multiply, then
normalize `us` into [0, 10^6) carrying into `timet`.  The resulting
datetime is returned as its total microsecond count
`timet * 10^6 + us`. -/
def utc_timestamp_to_utc_datetime (ts : ℚ) : Int :=
  let timet : ℤ := ratTrunc ts
  let fraction : ℚ := roundDouble (ts - roundDouble (timet : ℚ))
  let us : ℤ := round_to_long (roundDouble (fraction * 1000000))
  if us < 0 then (timet - 1) * 1000000 + (us + 1000000)
  else if us = 1000000 then (timet + 1) * 1000000 + 0
  else timet * 1000000 + us

/-! ## `LogLevel` and the logging callback -/

/-- Modelled from the spec: the native numeric code for the `fatal`
severity (the concrete values are defined by the native header, outside
the excerpt; only their distinctness matters). -/
def FREELAN_LOG_LEVEL_FATAL : Nat := 10

/-- Modelled from the spec: the native numeric code for `error`. -/
def FREELAN_LOG_LEVEL_ERROR : Nat := 20

/-- Modelled from the spec: the native numeric code for `warning`. -/
def FREELAN_LOG_LEVEL_WARNING : Nat := 30

/-- Modelled from the spec: the native numeric code for `important`. -/
def FREELAN_LOG_LEVEL_IMPORTANT : Nat := 40

/-- Modelled from the spec: the native numeric code for `information`. -/
def FREELAN_LOG_LEVEL_INFORMATION : Nat := 50

/-- Modelled from the spec: the native numeric code for `debug`. -/
def FREELAN_LOG_LEVEL_DEBUG : Nat := 60

/-- Modelled from the spec: the native numeric code for `trace`. -/
def FREELAN_LOG_LEVEL_TRACE : Nat := 70

/-- The `LogLevel` enumeration of `pyfreelan/api/log.py`. -/
inductive LogLevel where
  | fatal
  | error
  | warning
  | important
  | information
  | debug
  | trace
  deriving DecidableEq, Repr

/-- Python's `LogLevel(n)` enum lookup: the member whose native value is
`n`, or `none` (a `ValueError`) when `n` is not a member value. -/
def LogLevel.ofNative (n : Nat) : Option LogLevel :=
  if n = FREELAN_LOG_LEVEL_FATAL then some .fatal
  else if n = FREELAN_LOG_LEVEL_ERROR then some .error
  else if n = FREELAN_LOG_LEVEL_WARNING then some .warning
  else if n = FREELAN_LOG_LEVEL_IMPORTANT then some .important
  else if n = FREELAN_LOG_LEVEL_INFORMATION then some .information
  else if n = FREELAN_LOG_LEVEL_DEBUG then some .debug
  else if n = FREELAN_LOG_LEVEL_TRACE then some .trace
  else none

/-- `from_native_payload(payload)` from `pyfreelan/api/log.py`: the key
is read as bytes (`ffi.string`), and the value is read according to the
type tag — strings are UTF-8 decoded (raising `UnicodeDecodeError` on
invalid bytes), integers and floats are read directly, booleans compare
the stored C integer against 0, and any unrecognized tag yields `None`.
Reading a union field that was not the one stored is undefined behaviour
at the C level and is modelled as an error; it is unreachable for
payloads built by `log_attach`. -/
def from_native_payload (p : NativePayload) :
    Except PyError (List Nat × PyValue) :=
  if p.type = FREELAN_LOG_PAYLOAD_TYPE_STRING then
    match p.value with
    | .as_string b =>
      match utf8Decode b with
      | some s => .ok (p.key, .unicode s)
      | none => .error .unicodeDecodeError
    | _ => .error (.typeError "union field mismatch")
  else if p.type = FREELAN_LOG_PAYLOAD_TYPE_INTEGER then
    match p.value with
    | .as_integer n => .ok (p.key, .int n)
    | _ => .error (.typeError "union field mismatch")
  else if p.type = FREELAN_LOG_PAYLOAD_TYPE_FLOAT then
    match p.value with
    | .as_float x => .ok (p.key, .float x)
    | _ => .error (.typeError "union field mismatch")
  else if p.type = FREELAN_LOG_PAYLOAD_TYPE_BOOLEAN then
    match p.value with
    | .as_boolean n => .ok (p.key, .bool (n ≠ 0))
    | _ => .error (.typeError "union field mismatch")
  else
    .ok (p.key, .none)

/-- The payload comprehension of `logging_callback`: decode each of the
`payload_size` native payloads in order with `from_native_payload`,
propagating the first exception.  (The Python code collects the pairs
into a dict; the association list keeps the decoded pairs in order.) -/
def decodeAll : List NativePayload →
    Except PyError (List (List Nat × PyValue))
  | [] => .ok []
  | p :: ps =>
    match from_native_payload p with
    | .error e => .error e
    | .ok kv =>
      match decodeAll ps with
      | .error e => .error e
      | .ok rest => .ok (kv :: rest)

/-- The structured event `logging_callback` passes to the installed
logging function. -/
structure LogEvent where
  level : LogLevel
  timestamp : Int
  domain : List Nat
  code : List Nat
  payload : List (List Nat × PyValue)
  file : Option (List Nat)
  line : Nat

/-- What a call to `logging_callback` did: the integer returned to the
native layer, and the event passed to the logging function (`none` when
no logging function was invoked). -/
structure CallbackResult where
  ret : Int
  invoked : Option LogEvent

/-- `logging_callback(level, timestamp, domain, code, payload_size,
payload, file, line)` from `pyfreelan/api/log.py`: if no logging
function is installed return 0 immediately; otherwise build the
structured event — converting the level (`ValueError` on an unknown
code), the timestamp, decoding every payload entry, and decoding `file`
only when the pointer is non-null (else no file and line 0) — call the
logging function on it and return 1 iff its result is truthy.  Any
exception raised while building the event propagates out of the
callback (across the native boundary). -/
def logging_callback (slot : Option (LogEvent → Bool)) (level : Nat)
    (ts : ℚ) (domain code : List Nat) (payload : List NativePayload)
    (file : Option (List Nat)) (line : Nat) :
    Except PyError CallbackResult :=
  match slot with
  | none => .ok ⟨0, none⟩
  | some f =>
    match LogLevel.ofNative level with
    | none => .error .valueError
    | some lv =>
      match decodeAll payload with
      | .error e => .error e
      | .ok dps =>
        let ev : LogEvent :=
          ⟨lv, utc_timestamp_to_utc_datetime ts, domain, code, dps, file,
            if file.isSome then line else 0⟩
        .ok ⟨if f ev then 1 else 0, some ev⟩

/-- `set_logging_function(func)` from `pyfreelan/api/log.py`: stores
`func` in the process-wide `CALLBACKS` slot, and registers the C
trampoline with the native layer — or a NULL callback when `func` is
`None`.  Returns the new slot value and the native call issued. -/
def set_logging_function (func : Option (LogEvent → Bool)) :
    Option (LogEvent → Bool) × NCall :=
  (func,
    match func with
    | none => NCall.set_logging_callback false
    | some _ => NCall.set_logging_callback true)

/-! ## Expected round-trip results

Used to state the attach/decode round-trip property: what
`from_native_payload` should give back for a supported value attached by
`log_attach` — text comes back as `unicode` (byte strings via UTF-8
decoding), integers, booleans and floats come back unchanged.  `none`
marks the values the round-trip property does not cover (unsupported
types, or byte strings that are not valid UTF-8). -/
def decodedValue : PyValue → Option PyValue
  | .unicode s => some (.unicode s)
  | .str b => (utf8Decode b).map .unicode
  | .int n => some (.int n)
  | .bool b => some (.bool b)
  | .float x => some (.float x)
  | .none => Option.none

/-! # Theorems

## UTF-8 round-trip -/

/-- A code point always encodes to at least one byte. -/
theorem utf8EncodeChar_ne_nil (c : Nat) : utf8EncodeChar c ≠ [] := by
  rw [utf8EncodeChar]
  split_ifs <;> simp

/-- Decoding one code point from the front of `utf8EncodeChar c ++ rest`
recovers `c` and leaves `rest`, for every code point `c < 0x110000`. -/
theorem utf8DecodeOne_encodeChar (c : Nat) (h : c < 0x110000) (rest : List Nat) :
    utf8DecodeOne (utf8EncodeChar c ++ rest) = some (c, rest) := by
  rcases Nat.lt_or_ge c 0x80 with h1 | h1
  · have e1 : utf8EncodeChar c = [c] := by rw [utf8EncodeChar, if_pos h1]
    rw [e1, List.cons_append, List.nil_append, utf8DecodeOne, if_pos h1]
  rcases Nat.lt_or_ge c 0x800 with h2 | h2
  · have e1 : utf8EncodeChar c = [0xC0 + c / 0x40, 0x80 + c % 0x40] := by
      rw [utf8EncodeChar, if_neg (by omega), if_pos h2]
    rw [e1, List.cons_append, List.cons_append, List.nil_append]
    rw [utf8DecodeOne]
    rw [if_neg (by omega), if_neg (by omega), if_pos (by omega)]
    rw [utf8DecodeTwo]
    rw [if_pos (show utf8Cont (0x80 + c % 0x40) = true by
      simp only [utf8Cont, Bool.and_eq_true, decide_eq_true_eq]; omega)]
    rw [if_pos (by omega)]
    have e2 : (0xC0 + c / 0x40 - 0xC0) * 0x40 + (0x80 + c % 0x40 - 0x80) = c := by
      omega
    rw [e2]
  rcases Nat.lt_or_ge c 0x10000 with h3 | h3
  · have e1 : utf8EncodeChar c =
        [0xE0 + c / 0x1000, 0x80 + (c / 0x40) % 0x40, 0x80 + c % 0x40] := by
      rw [utf8EncodeChar, if_neg (by omega), if_neg (by omega), if_pos h3]
    rw [e1, List.cons_append, List.cons_append, List.cons_append, List.nil_append]
    rw [utf8DecodeOne]
    rw [if_neg (by omega), if_neg (by omega), if_neg (by omega), if_pos (by omega)]
    rw [utf8DecodeThree]
    rw [if_pos (show (utf8Cont (0x80 + (c / 0x40) % 0x40) && utf8Cont (0x80 + c % 0x40)) = true by
      simp only [utf8Cont, Bool.and_eq_true, decide_eq_true_eq]; omega)]
    rw [if_pos (by omega)]
    have e2 : (0xE0 + c / 0x1000 - 0xE0) * 0x1000 +
        (0x80 + (c / 0x40) % 0x40 - 0x80) * 0x40 + (0x80 + c % 0x40 - 0x80) = c := by
      omega
    rw [e2]
  · have e1 : utf8EncodeChar c =
        [0xF0 + c / 0x40000, 0x80 + (c / 0x1000) % 0x40,
         0x80 + (c / 0x40) % 0x40, 0x80 + c % 0x40] := by
      rw [utf8EncodeChar, if_neg (by omega), if_neg (by omega), if_neg (by omega)]
    rw [e1, List.cons_append, List.cons_append, List.cons_append, List.cons_append,
      List.nil_append]
    rw [utf8DecodeOne]
    rw [if_neg (by omega), if_neg (by omega), if_neg (by omega), if_neg (by omega),
      if_pos (by omega)]
    rw [utf8DecodeFour]
    rw [if_pos (show (utf8Cont (0x80 + (c / 0x1000) % 0x40) &&
        utf8Cont (0x80 + (c / 0x40) % 0x40) && utf8Cont (0x80 + c % 0x40)) = true by
      simp only [utf8Cont, Bool.and_eq_true, decide_eq_true_eq]; omega)]
    rw [if_pos (show 0x10000 ≤ (0xF0 + c / 0x40000 - 0xF0) * 0x40000 +
        (0x80 + (c / 0x1000) % 0x40 - 0x80) * 0x1000 +
        (0x80 + (c / 0x40) % 0x40 - 0x80) * 0x40 + (0x80 + c % 0x40 - 0x80) ∧
        (0xF0 + c / 0x40000 - 0xF0) * 0x40000 +
        (0x80 + (c / 0x1000) % 0x40 - 0x80) * 0x1000 +
        (0x80 + (c / 0x40) % 0x40 - 0x80) * 0x40 + (0x80 + c % 0x40 - 0x80) < 0x110000 by
      constructor <;> omega)]
    have e2 : (0xF0 + c / 0x40000 - 0xF0) * 0x40000 +
        (0x80 + (c / 0x1000) % 0x40 - 0x80) * 0x1000 +
        (0x80 + (c / 0x40) % 0x40 - 0x80) * 0x40 + (0x80 + c % 0x40 - 0x80) = c := by
      omega
    rw [e2]

/-- The decoding loop inverts encoding whenever the fuel covers the
encoded length. -/
theorem utf8DecodeLoop_encode (s : List Nat) (hs : ∀ c ∈ s, c < 0x110000) :
    ∀ fuel, (utf8Encode s).length ≤ fuel →
      utf8DecodeLoop fuel (utf8Encode s) = some s := by
  induction s with
  | nil => intro fuel _; rw [utf8Encode]; cases fuel <;> rfl
  | cons c cs ih =>
    intro fuel hf
    obtain ⟨b, bs, hb⟩ : ∃ b bs, utf8EncodeChar c = b :: bs := by
      cases h : utf8EncodeChar c with
      | nil => exact absurd h (utf8EncodeChar_ne_nil c)
      | cons b bs => exact ⟨b, bs, rfl⟩
    have hone := utf8DecodeOne_encodeChar c (hs c (List.mem_cons_self c cs))
      (utf8Encode cs)
    have hlen : (utf8Encode (c :: cs)).length =
        (utf8EncodeChar c).length + (utf8Encode cs).length := by
      rw [utf8Encode, List.length_append]
    match fuel with
    | 0 =>
      exfalso
      rw [hlen, hb] at hf
      simp at hf
    | f + 1 =>
      rw [utf8Encode, hb, List.cons_append, utf8DecodeLoop]
      rw [hb, List.cons_append] at hone
      rw [hone]
      have hcs : (utf8Encode cs).length ≤ f := by
        rw [hlen, hb] at hf
        simp only [List.length_cons] at hf
        omega
      show Option.map (fun x => c :: x) (utf8DecodeLoop f (utf8Encode cs)) =
        some (c :: cs)
      rw [ih (fun x hx => hs x (List.mem_cons_of_mem c hx)) f hcs]
      rfl

/-- UTF-8 decoding inverts UTF-8 encoding on every sequence of code
points below `0x110000`. -/
theorem utf8Decode_encode (s : List Nat) (hs : ∀ c ∈ s, c < 0x110000) :
    utf8Decode (utf8Encode s) = some s :=
  utf8DecodeLoop_encode s hs (utf8Encode s).length le_rfl

/-! ## Binary64 rounding

Facts about `roundDouble` needed for the timestamp round trip: rounding
is the identity exactly on the representable values (`IsRepr`), the
floor and fractional part of a nonnegative representable value are
representable, and — as a fidelity check of the float model — the
rounding really is lossy at timestamps finer than the double's
resolution, reproducing the microsecond drift the Python code exhibits
there. -/

/-- Rounding an integer to an integer changes nothing. -/
theorem roundNearestEven_intCast (n : ℤ) : roundNearestEven (n : ℚ) = n := by
  rw [roundNearestEven, Int.floor_intCast]
  rw [if_pos (by norm_num)]

/-- `roundDouble` is the identity on every representable value: a
binary64 value re-rounds to itself. -/
theorem roundDouble_eq_self {q : ℚ} (h : IsRepr q) : roundDouble q = q := by
  obtain ⟨m, e, rfl, hm⟩ := h
  by_cases hq0 : (m : ℚ) * 2 ^ e = 0
  · rw [roundDouble, if_pos hq0, hq0]
  have hm0 : m ≠ 0 := fun h0 => hq0 (by rw [h0]; norm_num)
  have h2e : (0 : ℚ) < 2 ^ e := zpow_pos (by norm_num) e
  have habs : |(m : ℚ) * 2 ^ e| = ((|m| : ℤ) : ℚ) * 2 ^ e := by
    rw [abs_mul, abs_of_pos h2e, Int.cast_abs]
  have hMq0 : (0 : ℚ) < ((|m| : ℤ) : ℚ) * 2 ^ e := by
    apply mul_pos _ h2e
    exact_mod_cast abs_pos.mpr hm0
  have hMle : |m| ≤ (2 : ℤ) ^ 53 := by
    have := Int.abs_eq_natAbs m
    omega
  set L : ℤ := Int.log 2 (((|m| : ℤ) : ℚ) * 2 ^ e) with hL
  have hcast2 : ((2 : ℕ) : ℚ) = (2 : ℚ) := by norm_num
  have hL1 : (2 : ℚ) ^ L ≤ ((|m| : ℤ) : ℚ) * 2 ^ e := by
    have := Int.zpow_log_le_self (b := 2) (by norm_num) hMq0
    rwa [hcast2] at this
  obtain ⟨k, hk⟩ : ∃ k : ℤ, (k : ℚ) * 2 ^ (L - 52) = ((|m| : ℤ) : ℚ) * 2 ^ e := by
    rcases le_or_lt (L - 52) e with hce | hce
    · refine ⟨|m| * 2 ^ (e - (L - 52)).toNat, ?_⟩
      have hcast : ((|m| * 2 ^ (e - (L - 52)).toNat : ℤ) : ℚ) =
          ((|m| : ℤ) : ℚ) * (2 : ℚ) ^ (e - (L - 52)) := by
        push_cast
        rw [← zpow_natCast (2 : ℚ) (e - (L - 52)).toNat,
          Int.toNat_of_nonneg (by omega : (0 : ℤ) ≤ e - (L - 52))]
      rw [hcast, mul_assoc, ← zpow_add₀ (by norm_num : (2 : ℚ) ≠ 0)]
      have hee : e - (L - 52) + (L - 52) = e := by ring
      rw [hee]
    · have hup : L ≤ 53 + e := by
        have hle : ((|m| : ℤ) : ℚ) * 2 ^ e ≤ (2 : ℚ) ^ (53 + e) := by
          rw [zpow_add₀ (by norm_num : (2 : ℚ) ≠ 0)]
          apply mul_le_mul_of_nonneg_right _ h2e.le
          calc ((|m| : ℤ) : ℚ) ≤ ((2 ^ 53 : ℤ) : ℚ) := by exact_mod_cast hMle
            _ = (2 : ℚ) ^ (53 : ℤ) := by norm_num
        have hmono := Int.log_mono_right (b := 2) hMq0 hle
        have hzz : Int.log 2 ((2 : ℚ) ^ (53 + e)) = 53 + e := by
          have := Int.log_zpow (b := 2) (R := ℚ) (by norm_num) (53 + e)
          rwa [hcast2] at this
        rw [hL]
        omega
      have hLe : L = e + 53 := by omega
      have hMge : (2 : ℤ) ^ 53 ≤ |m| := by
        have h1 : (2 : ℚ) ^ (53 : ℤ) * 2 ^ e ≤ ((|m| : ℤ) : ℚ) * 2 ^ e := by
          rw [← zpow_add₀ (by norm_num : (2 : ℚ) ≠ 0)]
          have h53e : (53 : ℤ) + e = L := by omega
          rw [h53e]
          exact hL1
        have h53 := le_of_mul_le_mul_right h1 h2e
        have hcc : ((2 ^ 53 : ℤ) : ℚ) ≤ ((|m| : ℤ) : ℚ) := by
          calc ((2 ^ 53 : ℤ) : ℚ) = (2 : ℚ) ^ (53 : ℤ) := by norm_num
            _ ≤ _ := h53
        exact_mod_cast hcc
      have hMeq : |m| = 2 ^ 53 := le_antisymm hMle hMge
      refine ⟨2 ^ 52, ?_⟩
      rw [hMeq, hLe]
      have hc1 : (((2 : ℤ) ^ 52 : ℤ) : ℚ) = (2 : ℚ) ^ (52 : ℤ) := by norm_num
      have hc2 : (((2 : ℤ) ^ 53 : ℤ) : ℚ) = (2 : ℚ) ^ (53 : ℤ) := by norm_num
      rw [hc1, hc2, ← zpow_add₀ (by norm_num : (2 : ℚ) ≠ 0),
        ← zpow_add₀ (by norm_num : (2 : ℚ) ≠ 0)]
      have hee : (52 : ℤ) + (e + 53 - 52) = 53 + e := by ring
      rw [hee]
  have hne : (2 : ℚ) ^ (L - 52) ≠ 0 := (zpow_pos (by norm_num) _).ne'
  have hdiv : |(m : ℚ) * 2 ^ e| / 2 ^ (L - 52) = (k : ℚ) := by
    rw [habs, ← hk, mul_div_assoc, div_self hne, mul_one]
  rw [roundDouble, if_neg hq0]
  have hLrw : Int.log 2 |(m : ℚ) * 2 ^ e| = L := by rw [habs, hL]
  rw [hLrw, hdiv, roundNearestEven_intCast, mul_assoc, hk]
  rcases lt_trichotomy m 0 with hmlt | hmz | hmgt
  · rw [if_pos (mul_neg_of_neg_of_pos (by exact_mod_cast hmlt) h2e)]
    have habs2 : ((|m| : ℤ) : ℚ) = -(m : ℚ) := by
      rw [abs_of_neg hmlt]; push_cast; ring
    rw [habs2]; ring
  · exact absurd hmz hm0
  · rw [if_neg (not_lt.mpr (mul_nonneg (by exact_mod_cast hmgt.le) h2e.le))]
    have habs2 : ((|m| : ℤ) : ℚ) = (m : ℚ) := by rw [abs_of_pos hmgt]
    rw [habs2]; ring

/-- Integers of magnitude at most 2^53 are exactly representable. -/
theorem isRepr_intCast {n : ℤ} (h : n.natAbs ≤ 2 ^ 53) : IsRepr (n : ℚ) :=
  ⟨n, 0, by norm_num, h⟩

/-- The floor and the fractional part of a nonnegative representable
value are themselves representable (the significand only loses bits in
both splits). -/
theorem isRepr_floor_fract {x : ℚ} (h : IsRepr x) (hx : 0 ≤ x) :
    IsRepr ((⌊x⌋ : ℤ) : ℚ) ∧ IsRepr (x - ⌊x⌋) := by
  obtain ⟨m, e, rfl, hm⟩ := h
  have h2e : (0 : ℚ) < 2 ^ e := zpow_pos (by norm_num) e
  have hm0 : 0 ≤ m := by
    by_contra hneg
    push_neg at hneg
    have : (m : ℚ) * 2 ^ e < 0 :=
      mul_neg_of_neg_of_pos (by exact_mod_cast hneg) h2e
    linarith
  rcases le_or_lt 0 e with he | he
  · have hint : (m : ℚ) * 2 ^ e = ((m * 2 ^ e.toNat : ℤ) : ℚ) := by
      push_cast
      rw [← zpow_natCast (2 : ℚ) e.toNat, Int.toNat_of_nonneg he]
    have hfl : ⌊(m : ℚ) * 2 ^ e⌋ = m * 2 ^ e.toNat := by
      rw [hint, Int.floor_intCast]
    constructor
    · rw [hfl, ← hint]
      exact ⟨m, e, rfl, hm⟩
    · rw [hfl, ← hint, sub_self]
      exact ⟨0, 0, by norm_num, by norm_num⟩
  · set D : ℤ := ⌊(m : ℚ) * 2 ^ e⌋ with hD
    have hD0 : 0 ≤ D := Int.floor_nonneg.mpr hx
    have hpow : ((2 ^ (-e).toNat : ℤ) : ℚ) = (2 : ℚ) ^ (-e) := by
      push_cast
      rw [← zpow_natCast (2 : ℚ) (-e).toNat,
        Int.toNat_of_nonneg (by omega : (0 : ℤ) ≤ -e)]
    have hcancel : ((2 : ℚ) ^ (-e)) * 2 ^ e = 1 := by
      rw [← zpow_add₀ (by norm_num : (2 : ℚ) ≠ 0)]
      norm_num
    set k : ℤ := m - D * 2 ^ (-e).toNat with hkdef
    have hkey : (k : ℚ) * 2 ^ e = (m : ℚ) * 2 ^ e - D := by
      rw [hkdef]
      push_cast [hpow]
      rw [sub_mul, mul_assoc, hcancel, mul_one]
    have hfr0 : (0 : ℚ) ≤ (m : ℚ) * 2 ^ e - D := by
      have := Int.floor_le ((m : ℚ) * 2 ^ e)
      rw [← hD] at this
      linarith
    have hk0 : 0 ≤ k := by
      by_contra hneg
      push_neg at hneg
      have : (k : ℚ) * 2 ^ e < 0 :=
        mul_neg_of_neg_of_pos (by exact_mod_cast hneg) h2e
      rw [hkey] at this
      linarith
    have hkm : k ≤ m := by
      have hle : (k : ℚ) * 2 ^ e ≤ (m : ℚ) * 2 ^ e := by
        rw [hkey]
        have : (0 : ℚ) ≤ (D : ℚ) := by exact_mod_cast hD0
        linarith
      have := le_of_mul_le_mul_right hle h2e
      exact_mod_cast this
    have hkabs : k.natAbs ≤ 2 ^ 53 := by
      have := Int.abs_eq_natAbs k
      have := Int.abs_eq_natAbs m
      omega
    constructor
    · have hDq : ((D : ℤ) : ℚ) = ((m - k : ℤ) : ℚ) * 2 ^ e := by
        push_cast
        rw [sub_mul, hkey]
        ring
      refine ⟨m - k, e, hDq, ?_⟩
      have := Int.abs_eq_natAbs (m - k)
      have := Int.abs_eq_natAbs m
      omega
    · refine ⟨k, e, ?_, hkabs⟩
      rw [hkey]

/-- Fidelity of the float model: the timestamp of the datetime
8589934592000001 µs (year 2242) is NOT representable — the closest
binary64 value to 8589934592.000001 s is 2^33 + 2^-19 s, one ulp
(≈1.907 µs) above the integer second. -/
theorem roundDouble_offres :
    roundDouble ((8589934592000001 : ℚ) / 1000000) =
      (4503599627370497 : ℚ) / 524288 := by
  set q : ℚ := (8589934592000001 : ℚ) / 1000000 with hq
  have hqpos : 0 < q := by rw [hq]; norm_num
  have hq0 : q ≠ 0 := hqpos.ne'
  have hcast2 : ((2 : ℕ) : ℚ) = (2 : ℚ) := by norm_num
  have hlog : Int.log 2 q = 33 := by
    have hlo : (33 : ℤ) ≤ Int.log 2 q := by
      have h1 : ((2 : ℕ) : ℚ) ^ (33 : ℤ) ≤ q := by
        rw [hcast2, hq]
        norm_num
      exact (Int.zpow_le_iff_le_log (by norm_num) hqpos).mp h1
    have hhi : Int.log 2 q < 34 := by
      have h1 : q < ((2 : ℕ) : ℚ) ^ (34 : ℤ) := by
        rw [hcast2, hq]
        norm_num
      exact (Int.lt_zpow_iff_log_lt (by norm_num) hqpos).mp h1
    omega
  have habs : |q| = q := abs_of_pos hqpos
  rw [roundDouble, if_neg hq0, if_neg (not_lt.mpr hqpos.le), habs, hlog]
  have hval : q / 2 ^ ((33 : ℤ) - 52) = 4503599627370496 + 8192 / 15625 := by
    have hzp : (2 : ℚ) ^ ((33 : ℤ) - 52) = 1 / 524288 := by
      norm_num
    rw [hzp, hq]
    norm_num
  rw [hval]
  have hfl : ⌊(4503599627370496 : ℚ) + 8192 / 15625⌋ = 4503599627370496 := by
    rw [Int.floor_eq_iff]
    constructor <;> norm_num
  rw [roundNearestEven, hfl]
  rw [if_neg (by push_cast; norm_num), if_pos (by push_cast; norm_num)]
  push_cast
  norm_num

/-- Fidelity of the float model, continued: feeding that timestamp back
through `utc_timestamp_to_utc_datetime` lands on 8589934592000002 µs —
one microsecond off, exactly the drift the Python helpers exhibit past
the double's resolution.  The round-trip property genuinely needs its
representability hypothesis. -/
theorem utc_roundtrip_offres :
    utc_timestamp_to_utc_datetime
      (utc_datetime_to_utc_timestamp 8589934592000001) = 8589934592000002 := by
  have hts : utc_datetime_to_utc_timestamp 8589934592000001 =
      (4503599627370497 : ℚ) / 524288 := by
    rw [utc_datetime_to_utc_timestamp]
    push_cast
    exact roundDouble_offres
  rw [hts]
  set ts : ℚ := (4503599627370497 : ℚ) / 524288 with htsdef
  have h1 : ratTrunc ts = 8589934592 := by
    rw [ratTrunc, if_pos (by rw [htsdef]; norm_num)]
    rw [Int.floor_eq_iff]
    constructor <;> (rw [htsdef]; norm_num)
  have h2 : roundDouble ((8589934592 : ℤ) : ℚ) = ((8589934592 : ℤ) : ℚ) :=
    roundDouble_eq_self ⟨8589934592, 0, by norm_num, by norm_num⟩
  have h3 : ts - ((8589934592 : ℤ) : ℚ) = 1 / 524288 := by
    rw [htsdef]
    push_cast
    norm_num
  have h4 : roundDouble ((1 : ℚ) / 524288) = 1 / 524288 :=
    roundDouble_eq_self ⟨1, -19, by norm_num, by norm_num⟩
  have h5 : (1 : ℚ) / 524288 * 1000000 = 15625 / 8192 := by norm_num
  have h6 : roundDouble ((15625 : ℚ) / 8192) = 15625 / 8192 :=
    roundDouble_eq_self ⟨15625, -13, by norm_num, by norm_num⟩
  have h7 : round_to_long ((15625 : ℚ) / 8192) = 2 := by
    rw [round_to_long, if_pos (by norm_num)]
    have hh : (15625 : ℚ) / 8192 + 1 / 2 = 19721 / 8192 := by norm_num
    rw [hh, roundDouble_eq_self ⟨19721, -13, by norm_num, by norm_num⟩]
    rw [Int.floor_eq_iff]
    constructor <;> norm_num
  rw [utc_timestamp_to_utc_datetime]
  simp only [h1, h2, h3, h4, h5, h6, h7]
  norm_num

/-! ## Behaviour of `log_attach` and the attach loop -/

/-- On a non-empty payload, `log` starts a native entry, runs the attach
loop, and always completes the entry: the result and trace are exactly
those of the start/attach/complete sequence, whatever the attach loop's
in-flight exception was. -/
theorem log_nonempty_payload (ns : NativeState) (level : Nat) (ts : ℚ)
    (domain code : List Nat) (l : List (PyValue × PyValue))
    (file : Option (List Nat)) (line : Nat) (h : l ≠ []) :
    log ns level ts domain code (some l) file line =
      .ok (freelan_log_complete ns (attachAll ⟨level, [], []⟩ l).1 ≠ 0,
        NCall.log_start level ts domain code (startFile file)
          (startLine file line) ::
          (attachAll ⟨level, [], []⟩ l).2.1 ++ [NCall.log_complete]) := by
  match l with
  | [] => exact absurd rfl h
  | p :: ps =>
    cases hf : file with
    | none => rfl
    | some fb => rfl

/-- A pair whose key is not text or whose value has an unsupported type
makes `log_attach` raise a `TypeError`, for every entry state — without
recording anything on the entry and without issuing any native call. -/
theorem log_attach_bad (k v : PyValue)
    (hbad : textKey k = false ∨ supportedValue v = false) :
    ∃ msg, ∀ e, log_attach e k v = .error (.typeError msg) := by
  by_cases hk : textKey k = true
  · have hv : supportedValue v = false := by
      rcases hbad with hb | hb
      · rw [hk] at hb; cases hb
      · exact hb
    refine ⟨"value must be either a string, an integer, a float or a boolean value",
      fun e => ?_⟩
    cases v with
    | none =>
      cases k <;> simp_all [textKey, PyValue.isinstance_str,
        PyValue.isinstance_unicode, PyValue.isinstance_bool,
        PyValue.isinstance_int, PyValue.isinstance_float, log_attach]
    | str b => simp [supportedValue, PyValue.isinstance_str] at hv
    | unicode s => simp [supportedValue, PyValue.isinstance_unicode] at hv
    | int n => simp [supportedValue, PyValue.isinstance_int] at hv
    | bool b => simp [supportedValue, PyValue.isinstance_bool] at hv
    | float x => simp [supportedValue, PyValue.isinstance_float] at hv
  · refine ⟨"key must be a string", fun e => ?_⟩
    cases k <;> simp_all [textKey, PyValue.isinstance_str,
      PyValue.isinstance_unicode, log_attach]

/-- When the attach loop gets through `good` without an exception, on
`good ++ rest` it first issues exactly `good`'s calls from the same
states and then continues with `rest` from the resulting entry. -/
theorem attachAll_ok_append (good : List (PyValue × PyValue)) :
    ∀ (e : LogEntry) (rest : List (PyValue × PyValue)),
      (attachAll e good).2.2 = Option.none →
      attachAll e (good ++ rest) =
        ((attachAll (attachAll e good).1 rest).1,
         (attachAll e good).2.1 ++ (attachAll (attachAll e good).1 rest).2.1,
         (attachAll (attachAll e good).1 rest).2.2) := by
  induction good with
  | nil => intro e rest _; simp [attachAll]
  | cons p ps ih =>
    intro e rest hok
    obtain ⟨pk, pv⟩ := p
    rw [attachAll] at hok ⊢
    cases ha : log_attach e pk pv with
    | error err =>
      rw [ha] at hok
      cases hok
    | ok r =>
      obtain ⟨e1, calls⟩ := r
      rw [ha] at hok
      simp only at hok
      rw [List.cons_append, attachAll, ha]
      simp only
      rw [ih e1 rest hok]
      simp [attachAll, ha, List.append_assoc]

/-- A successful `log_attach` records exactly one payload on the entry
and issues exactly the matching native attach call. -/
theorem log_attach_ok_payload (e : LogEntry) (k v : PyValue) (e1 : LogEntry)
    (calls : List NCall) (h : log_attach e k v = .ok (e1, calls)) :
    ∃ p, e1.payloads = e.payloads ++ [p] ∧
      calls = [NCall.log_attach p.key p.type p.value] := by
  cases k <;> cases v <;>
    first
      | exact Except.noConfusion h
      | (cases h; exact ⟨_, rfl, rfl⟩)

/-- An exception-free attach loop records one native payload per pair. -/
theorem attachAll_ok_payloads (l : List (PyValue × PyValue)) :
    ∀ e, (attachAll e l).2.2 = Option.none →
      (attachAll e l).1.payloads.length = e.payloads.length + l.length := by
  induction l with
  | nil => intro e _; rfl
  | cons p ps ih =>
    intro e hok
    obtain ⟨pk, pv⟩ := p
    rw [attachAll] at hok ⊢
    cases ha : log_attach e pk pv with
    | error err => rw [ha] at hok; cases hok
    | ok r =>
      obtain ⟨e1, calls⟩ := r
      rw [ha] at hok
      simp only at hok
      simp only
      obtain ⟨q, hq, _⟩ := log_attach_ok_payload e pk pv e1 calls ha
      rw [ih e1 hok, hq]
      simp only [List.length_append, List.length_cons, List.length_nil]
      omega

/-- Decoding a concatenation of native payload lists decodes the two
parts in sequence, given the first part decodes cleanly. -/
theorem decodeAll_append (xs ys : List NativePayload)
    (dxs : List (List Nat × PyValue)) (h : decodeAll xs = .ok dxs) :
    decodeAll (xs ++ ys) =
      match decodeAll ys with
      | .ok dys => .ok (dxs ++ dys)
      | .error e => .error e := by
  induction xs generalizing dxs with
  | nil =>
    rw [decodeAll] at h
    cases h
    rw [List.nil_append]
    cases hy : decodeAll ys <;> simp [hy]
  | cons p ps ih =>
    rw [decodeAll] at h
    cases hp : from_native_payload p with
    | error e => rw [hp] at h; cases h
    | ok kv =>
      rw [hp] at h
      cases hps : decodeAll ps with
      | error e => rw [hps] at h; cases h
      | ok dps =>
        rw [hps] at h
        cases h
        rw [List.cons_append, decodeAll, hp, ih dps hps]
        cases hy : decodeAll ys <;> simp

/-! ## Claim theorems -/

/-- C1 (amended): when some payload pair has a non-text key or a value
of unsupported type, the `TypeError` is raised by `log_attach` at that
pair — before any native call is made for it, so the trace holds exactly
the earlier pairs' attach calls — and every one of the `good` earlier
pairs is attached on the entry that is completed and transmitted; but
the exception does not propagate out of `log`: the `return` inside the
`finally` block swallows it, and `log` returns the boolean result of
`freelan_log_complete` normally. -/
theorem attach_violation_not_raised_from_log (ns : NativeState) (level : Nat)
    (ts : ℚ) (domain code : List Nat) (good : List (PyValue × PyValue))
    (k v : PyValue) (rest : List (PyValue × PyValue))
    (file : Option (List Nat)) (line : Nat)
    (hgood : (attachAll ⟨level, [], []⟩ good).2.2 = Option.none)
    (hbad : textKey k = false ∨ supportedValue v = false) :
    ∃ msg,
      log_attach (attachAll ⟨level, [], []⟩ good).1 k v =
        .error (.typeError msg) ∧
      (attachAll ⟨level, [], []⟩ good).1.payloads.length = good.length ∧
      log ns level ts domain code (some (good ++ (k, v) :: rest)) file line =
        .ok (freelan_log_complete ns (attachAll ⟨level, [], []⟩ good).1 ≠ 0,
          NCall.log_start level ts domain code (startFile file)
            (startLine file line) ::
            (attachAll ⟨level, [], []⟩ good).2.1 ++ [NCall.log_complete]) := by
  obtain ⟨msg, hmsg⟩ := log_attach_bad k v hbad
  refine ⟨msg, hmsg _, ?_, ?_⟩
  · have := attachAll_ok_payloads good ⟨level, [], []⟩ hgood
    simpa using this
  · rw [log_nonempty_payload ns level ts domain code _ file line (by simp)]
    have hA := attachAll_ok_append good ⟨level, [], []⟩ ((k, v) :: rest) hgood
    have hrest : attachAll (attachAll ⟨level, [], []⟩ good).1 ((k, v) :: rest) =
        ((attachAll ⟨level, [], []⟩ good).1, [], some (.typeError msg)) := by
      rw [attachAll, hmsg]
    rw [hA, hrest]
    simp

/-- C1 (counterexample to the claim as stated): on a payload whose
second pair carries the unsupported value `None`, `log` does not raise
the `TypeError` to its caller — it returns `.ok` with the completion
result, the first pair attached and transmitted. -/
theorem attach_violation_raises_out_of_log_cex :
    log ⟨true, fun _ => true⟩ FREELAN_LOG_LEVEL_ERROR 0 [100] [99]
        (some [(.str [97], .str [120]), (.str [98], PyValue.none)])
        Option.none 0 =
      .ok (true,
        [NCall.log_start FREELAN_LOG_LEVEL_ERROR 0 [100] [99] Option.none 0,
         NCall.log_attach [97] FREELAN_LOG_PAYLOAD_TYPE_STRING (.as_string [120]),
         NCall.log_complete]) ∧
    supportedValue PyValue.none = false :=
  ⟨rfl, rfl⟩

/-- Witness for C1 at a concrete input: one good pair, then a pair with
value `None`. -/
theorem attach_violation_not_raised_from_log_witness :
    ∃ msg,
      log_attach (attachAll ⟨FREELAN_LOG_LEVEL_ERROR, [], []⟩
          [(.str [97], .str [120])]).1 (.str [98]) PyValue.none =
        .error (.typeError msg) ∧
      (attachAll ⟨FREELAN_LOG_LEVEL_ERROR, [], []⟩
          [(.str [97], .str [120])]).1.payloads.length =
        [(PyValue.str [97], PyValue.str [120])].length ∧
      log ⟨true, fun _ => true⟩ FREELAN_LOG_LEVEL_ERROR 0 [100] [99]
          (some ([(.str [97], .str [120])] ++ [(.str [98], PyValue.none)]))
          Option.none 0 =
        .ok (freelan_log_complete ⟨true, fun _ => true⟩
            (attachAll ⟨FREELAN_LOG_LEVEL_ERROR, [], []⟩
              [(.str [97], .str [120])]).1 ≠ 0,
          NCall.log_start FREELAN_LOG_LEVEL_ERROR 0 [100] [99]
            (startFile Option.none) (startLine Option.none 0) ::
            (attachAll ⟨FREELAN_LOG_LEVEL_ERROR, [], []⟩
              [(.str [97], .str [120])]).2.1 ++ [NCall.log_complete]) :=
  attach_violation_not_raised_from_log ⟨true, fun _ => true⟩
    FREELAN_LOG_LEVEL_ERROR 0 [100] [99] [(.str [97], .str [120])]
    (.str [98]) PyValue.none [] Option.none 0 (by rfl) (Or.inr rfl)

/-- C2: on every non-empty payload, whatever happens inside the attach
loop, the native call trace of `log` opens with `freelan_log_start` and
ends with `freelan_log_complete` — the entry is always completed, so the
native handle is never leaked. -/
theorem log_completes_entry_on_every_path (ns : NativeState) (level : Nat)
    (ts : ℚ) (domain code : List Nat) (l : List (PyValue × PyValue))
    (file : Option (List Nat)) (line : Nat) (h : l ≠ []) :
    ∃ b tr, log ns level ts domain code (some l) file line = .ok (b, tr) ∧
      tr.head? = some (NCall.log_start level ts domain code (startFile file)
        (startLine file line)) ∧
      tr.getLast? = some NCall.log_complete := by
  refine ⟨_, _, log_nonempty_payload ns level ts domain code l file line h,
    rfl, ?_⟩
  have key : ∀ (x : NCall) (A : List NCall),
      (x :: (A ++ [NCall.log_complete])).getLast? = some NCall.log_complete := by
    intro x A
    rw [← List.cons_append]
    exact (List.getLast?_append_cons (x :: A) NCall.log_complete []).trans rfl
  exact key _ _

/-- Witness for C2 at a concrete input whose attach loop raises on its
second pair: the trace still ends with `freelan_log_complete`. -/
theorem log_completes_entry_on_every_path_witness :
    ∃ b tr, log ⟨true, fun _ => true⟩ FREELAN_LOG_LEVEL_DEBUG 0 [102] [99]
        (some [(.str [97], .int 5), (.str [98], PyValue.none)])
        Option.none 7 = .ok (b, tr) ∧
      tr.head? = some (NCall.log_start FREELAN_LOG_LEVEL_DEBUG 0 [102] [99]
        (startFile Option.none) (startLine Option.none 7)) ∧
      tr.getLast? = some NCall.log_complete :=
  log_completes_entry_on_every_path ⟨true, fun _ => true⟩
    FREELAN_LOG_LEVEL_DEBUG 0 [102] [99]
    [(.str [97], .int 5), (.str [98], PyValue.none)] Option.none 7 (by decide)

/-- C3: the claim says `logging_callback` never raises past the native
boundary and degrades any decoding anomaly to an absent value; the code
has no such guard.  At this concrete input — a handler installed and a
string payload whose bytes are not valid UTF-8 — the callback raises
`UnicodeDecodeError` across the native boundary instead of delivering
the event. -/
theorem logging_callback_raises_on_invalid_utf8 :
    logging_callback (some fun _ => true) FREELAN_LOG_LEVEL_ERROR 0 [100] [99]
        [⟨[107], FREELAN_LOG_PAYLOAD_TYPE_STRING, .as_string [0xFF]⟩]
        Option.none 0 =
      .error .unicodeDecodeError := by
  rfl

/-- C4: attaching a supported key/value pair with `log_attach` and
decoding the recorded native payload with `from_native_payload` gives
back the pair: the key is recovered exactly after the UTF-8
encode/decode round trip, and the value comes back with its type
preserved (text values exactly; byte-string values as their UTF-8
decoding; integer, boolean and float values identically), per
`decodedValue`. -/
theorem attach_decode_roundtrip (e : LogEntry) (k : List Nat) (v w : PyValue)
    (hk : ∀ c ∈ k, c < 0x110000)
    (hv : ∀ c ∈ v.unicodeVal, c < 0x110000)
    (hw : decodedValue v = some w) :
    ∃ e' p, log_attach e (.unicode k) v =
        .ok (e', [NCall.log_attach p.key p.type p.value]) ∧
      e'.payloads = e.payloads ++ [p] ∧
      p.key = utf8Encode k ∧
      utf8Decode p.key = some k ∧
      from_native_payload p = .ok (p.key, w) := by
  cases v with
  | str b =>
    simp only [decodedValue, Option.map_eq_some'] at hw
    obtain ⟨s, hs, hws⟩ := hw
    refine ⟨_, ⟨utf8Encode k, FREELAN_LOG_PAYLOAD_TYPE_STRING, .as_string b⟩,
      rfl, rfl, rfl, utf8Decode_encode k hk, ?_⟩
    simp [from_native_payload, hs, ← hws]
  | unicode s =>
    simp only [decodedValue] at hw
    cases hw
    refine ⟨_, ⟨utf8Encode k, FREELAN_LOG_PAYLOAD_TYPE_STRING,
      .as_string (utf8Encode s)⟩,
      rfl, rfl, rfl, utf8Decode_encode k hk, ?_⟩
    simp [from_native_payload, utf8Decode_encode s hv]
  | int n =>
    simp only [decodedValue] at hw
    cases hw
    exact ⟨_, ⟨utf8Encode k, FREELAN_LOG_PAYLOAD_TYPE_INTEGER, .as_integer n⟩,
      rfl, rfl, rfl, utf8Decode_encode k hk, rfl⟩
  | bool b =>
    simp only [decodedValue] at hw
    cases hw
    refine ⟨_, ⟨utf8Encode k, FREELAN_LOG_PAYLOAD_TYPE_BOOLEAN,
      .as_boolean (if b then 1 else 0)⟩,
      rfl, rfl, rfl, utf8Decode_encode k hk, ?_⟩
    cases b <;> rfl
  | float x =>
    simp only [decodedValue] at hw
    cases hw
    exact ⟨_, ⟨utf8Encode k, FREELAN_LOG_PAYLOAD_TYPE_FLOAT, .as_float x⟩,
      rfl, rfl, rfl, utf8Decode_encode k hk, rfl⟩
  | none =>
    simp only [decodedValue] at hw
    cases hw

/-- Witness for C4 at the spec's example: multi-byte key "d̸emo"
(U+0064 U+0338 ...) and value "café". -/
theorem attach_decode_roundtrip_witness :
    (∀ c ∈ [0x64, 0x338, 0x65, 0x6D, 0x6F], c < 0x110000) ∧
    decodedValue (.unicode [0x63, 0x61, 0x66, 0xE9]) =
      some (.unicode [0x63, 0x61, 0x66, 0xE9]) ∧
    ∃ e' p, log_attach ⟨FREELAN_LOG_LEVEL_DEBUG, [], []⟩
        (.unicode [0x64, 0x338, 0x65, 0x6D, 0x6F])
        (.unicode [0x63, 0x61, 0x66, 0xE9]) =
        .ok (e', [NCall.log_attach p.key p.type p.value]) ∧
      e'.payloads = [] ++ [p] ∧
      p.key = utf8Encode [0x64, 0x338, 0x65, 0x6D, 0x6F] ∧
      utf8Decode p.key = some [0x64, 0x338, 0x65, 0x6D, 0x6F] ∧
      from_native_payload p =
        .ok (p.key, .unicode [0x63, 0x61, 0x66, 0xE9]) :=
  ⟨by decide, rfl,
    attach_decode_roundtrip ⟨FREELAN_LOG_LEVEL_DEBUG, [], []⟩
      [0x64, 0x338, 0x65, 0x6D, 0x6F]
      (.unicode [0x63, 0x61, 0x66, 0xE9])
      (.unicode [0x63, 0x61, 0x66, 0xE9])
      (by decide) (by decide) rfl⟩

/-- C5: a native payload with an unrecognized type tag decodes to its
key with an absent (`None`) value, and a log event containing such a
payload is still fully assembled — every other entry decoded — and
delivered to the installed handler. -/
theorem unknown_tag_degrades_to_none (f : LogEvent → Bool) (level : Nat)
    (lv : LogLevel) (ts : ℚ) (domain code key : List Nat) (tag : Nat)
    (u : NativeUnion) (pre post : List NativePayload)
    (dpre dpost : List (List Nat × PyValue)) (file : Option (List Nat))
    (line : Nat)
    (htag : tag ≠ FREELAN_LOG_PAYLOAD_TYPE_STRING ∧
      tag ≠ FREELAN_LOG_PAYLOAD_TYPE_INTEGER ∧
      tag ≠ FREELAN_LOG_PAYLOAD_TYPE_FLOAT ∧
      tag ≠ FREELAN_LOG_PAYLOAD_TYPE_BOOLEAN)
    (hlv : LogLevel.ofNative level = some lv)
    (hpre : decodeAll pre = .ok dpre)
    (hpost : decodeAll post = .ok dpost) :
    from_native_payload ⟨key, tag, u⟩ = .ok (key, PyValue.none) ∧
    logging_callback (some f) level ts domain code
        (pre ++ ⟨key, tag, u⟩ :: post) file line =
      .ok ⟨if f ⟨lv, utc_timestamp_to_utc_datetime ts, domain, code,
              dpre ++ (key, PyValue.none) :: dpost, file,
              if file.isSome then line else 0⟩ then 1 else 0,
           some ⟨lv, utc_timestamp_to_utc_datetime ts, domain, code,
              dpre ++ (key, PyValue.none) :: dpost, file,
              if file.isSome then line else 0⟩⟩ := by
  obtain ⟨h1, h2, h3, h4⟩ := htag
  have hp : from_native_payload ⟨key, tag, u⟩ = .ok (key, PyValue.none) := by
    rw [from_native_payload]
    simp only [if_neg h1, if_neg h2, if_neg h3, if_neg h4]
  refine ⟨hp, ?_⟩
  have hall : decodeAll (pre ++ ⟨key, tag, u⟩ :: post) =
      .ok (dpre ++ (key, PyValue.none) :: dpost) := by
    rw [decodeAll_append pre (⟨key, tag, u⟩ :: post) dpre hpre]
    rw [decodeAll, hp, hpost]
  simp [logging_callback, hlv, hall]

/-- Witness for C5: a three-entry payload whose middle entry has
unrecognized tag 99 is delivered with that key mapped to an absent
value and the neighbouring entries decoded. -/
theorem unknown_tag_degrades_to_none_witness :
    from_native_payload ⟨[107], 99, .as_integer 5⟩ = .ok ([107], PyValue.none) ∧
    logging_callback (some fun _ => true) FREELAN_LOG_LEVEL_TRACE 0 [100] [99]
        [⟨[97], FREELAN_LOG_PAYLOAD_TYPE_BOOLEAN, .as_boolean 1⟩,
         ⟨[107], 99, .as_integer 5⟩,
         ⟨[98], FREELAN_LOG_PAYLOAD_TYPE_INTEGER, .as_integer 7⟩]
        Option.none 0 =
      .ok ⟨1, some ⟨.trace, utc_timestamp_to_utc_datetime 0, [100], [99],
        [([97], .bool true), ([107], PyValue.none), ([98], .int 7)],
        Option.none, 0⟩⟩ := by
  have h := unknown_tag_degrades_to_none (fun _ => true)
    FREELAN_LOG_LEVEL_TRACE .trace 0 [100] [99] [107] 99 (.as_integer 5)
    [⟨[97], FREELAN_LOG_PAYLOAD_TYPE_BOOLEAN, .as_boolean 1⟩]
    [⟨[98], FREELAN_LOG_PAYLOAD_TYPE_INTEGER, .as_integer 7⟩]
    [([97], .bool true)] [([98], .int 7)] Option.none 0
    (by refine ⟨?_, ?_, ?_, ?_⟩ <;> decide) (by rfl) (by rfl) (by rfl)
  exact ⟨h.1, h.2⟩

/-- C6: with no logging function installed — the default, and the state
`set_logging_function` leaves after being passed `None` — every
invocation of `logging_callback` returns 0 without invoking any handler
and without decoding anything (it returns `.ok` even on payloads whose
decoding would raise); and passing `None` to `set_logging_function`
registers a NULL callback with the native layer. -/
theorem no_handler_returns_not_handled :
    (∀ (level : Nat) (ts : ℚ) (domain code : List Nat)
        (payload : List NativePayload) (file : Option (List Nat)) (line : Nat),
      logging_callback Option.none level ts domain code payload file line =
        .ok ⟨0, Option.none⟩) ∧
    (set_logging_function Option.none).1 = Option.none ∧
    (set_logging_function Option.none).2 = NCall.set_logging_callback false ∧
    (∀ (level : Nat) (ts : ℚ) (domain code : List Nat)
        (payload : List NativePayload) (file : Option (List Nat)) (line : Nat),
      logging_callback (set_logging_function Option.none).1
          level ts domain code payload file line = .ok ⟨0, Option.none⟩) :=
  ⟨fun _ _ _ _ _ _ _ => rfl, rfl, rfl, fun _ _ _ _ _ _ _ => rfl⟩

/-- C7: with a handler installed, a null `file` pointer yields a
structured event with no file and line forced to 0, whatever line the
native layer supplied; a non-null `file` is decoded and the supplied
line passed through. -/
theorem null_file_yields_no_file_and_line_zero (f : LogEvent → Bool)
    (level : Nat) (lv : LogLevel) (ts : ℚ) (domain code : List Nat)
    (payload : List NativePayload) (dps : List (List Nat × PyValue))
    (line : Nat) (fb : List Nat)
    (hlv : LogLevel.ofNative level = some lv)
    (hdec : decodeAll payload = .ok dps) :
    logging_callback (some f) level ts domain code payload Option.none line =
      .ok ⟨if f ⟨lv, utc_timestamp_to_utc_datetime ts, domain, code, dps,
              Option.none, 0⟩ then 1 else 0,
           some ⟨lv, utc_timestamp_to_utc_datetime ts, domain, code, dps,
              Option.none, 0⟩⟩ ∧
    logging_callback (some f) level ts domain code payload (some fb) line =
      .ok ⟨if f ⟨lv, utc_timestamp_to_utc_datetime ts, domain, code, dps,
              some fb, line⟩ then 1 else 0,
           some ⟨lv, utc_timestamp_to_utc_datetime ts, domain, code, dps,
              some fb, line⟩⟩ := by
  constructor <;> simp [logging_callback, hlv, hdec]

/-- Witness for C7: a handler observing `line` sees line 0 under a null
file pointer (even though the native layer supplied 42), and line 42
under a non-null file pointer. -/
theorem null_file_yields_no_file_and_line_zero_witness :
    logging_callback (some fun ev => ev.line = 0) FREELAN_LOG_LEVEL_FATAL 0
        [100] [99] [⟨[107], FREELAN_LOG_PAYLOAD_TYPE_INTEGER, .as_integer 3⟩]
        Option.none 42 =
      .ok ⟨1, some ⟨.fatal, utc_timestamp_to_utc_datetime 0, [100], [99],
        [([107], .int 3)], Option.none, 0⟩⟩ ∧
    logging_callback (some fun ev => ev.line = 0) FREELAN_LOG_LEVEL_FATAL 0
        [100] [99] [⟨[107], FREELAN_LOG_PAYLOAD_TYPE_INTEGER, .as_integer 3⟩]
        (some [102]) 42 =
      .ok ⟨0, some ⟨.fatal, utc_timestamp_to_utc_datetime 0, [100], [99],
        [([107], .int 3)], some [102], 42⟩⟩ := by
  have h := null_file_yields_no_file_and_line_zero (fun ev => ev.line = 0)
    FREELAN_LOG_LEVEL_FATAL .fatal 0 [100] [99]
    [⟨[107], FREELAN_LOG_PAYLOAD_TYPE_INTEGER, .as_integer 3⟩]
    [([107], .int 3)] 42 [102] (by rfl) (by rfl)
  rw [h.1, h.2]
  constructor <;> rfl

/-- C8: with an absent or empty payload, `log` issues exactly one
single-shot `freelan_log` call with payload count 0 (no
start/attach/complete), and returns true iff that call returned nonzero
— which, per the modelled native layer, holds iff a callback is active
and the severity is accepted. -/
theorem empty_payload_single_shot (ns : NativeState) (level : Nat) (ts : ℚ)
    (domain code : List Nat) (payload : Option (List (PyValue × PyValue)))
    (file : Option (List Nat)) (line : Nat)
    (h : payload = Option.none ∨ payload = some []) :
    log ns level ts domain code payload file line =
      .ok (freelan_log ns level ≠ 0,
        [NCall.log level ts domain code 0 file
          (if file = Option.none then 0 else line)]) ∧
    ((freelan_log ns level ≠ 0) ↔
      (ns.callbackActive = true ∧ ns.levelAccepted level = true)) := by
  constructor
  · rcases h with h | h <;> rw [h] <;> rfl
  · rw [freelan_log]
    split_ifs with hh
    · simp only [Bool.and_eq_true] at hh
      simp [hh]
    · simp only [Bool.and_eq_true] at hh
      constructor
      · intro habs; exact absurd rfl habs
      · intro ⟨h1, h2⟩; exact (hh ⟨h1, h2⟩).elim

/-- Witness for C8: with no callback active, `log` with an absent
payload returns false; with a callback active and the level accepted,
`log` with an empty payload returns true — one native `freelan_log`
call in each case. -/
theorem empty_payload_single_shot_witness :
    log ⟨false, fun _ => true⟩ FREELAN_LOG_LEVEL_ERROR 0 [] [] Option.none
        Option.none 0 =
      .ok (false, [NCall.log FREELAN_LOG_LEVEL_ERROR 0 [] [] 0 Option.none 0]) ∧
    log ⟨true, fun _ => true⟩ FREELAN_LOG_LEVEL_ERROR 0 [] [] (some [])
        Option.none 0 =
      .ok (true, [NCall.log FREELAN_LOG_LEVEL_ERROR 0 [] [] 0 Option.none 0]) := by
  have h1 := (empty_payload_single_shot ⟨false, fun _ => true⟩
    FREELAN_LOG_LEVEL_ERROR 0 [] [] Option.none Option.none 0 (Or.inl rfl)).1
  have h2 := (empty_payload_single_shot ⟨true, fun _ => true⟩
    FREELAN_LOG_LEVEL_ERROR 0 [] [] (some []) Option.none 0 (Or.inr rfl)).1
  rw [h1, h2]
  exact ⟨rfl, rfl⟩

/-- C9: a boolean value is attached with the BOOLEAN native type tag,
never the INTEGER one, even though `isinstance(v, int)` also holds for
Python booleans — the `bool` test comes before the `int` test in
`log_attach`. -/
theorem bool_attached_with_boolean_tag (e : LogEntry) (kb : List Nat) (b : Bool) :
    log_attach e (.str kb) (.bool b) =
      .ok ({ e with payloads := e.payloads ++
              [⟨kb, FREELAN_LOG_PAYLOAD_TYPE_BOOLEAN,
                .as_boolean (if b then 1 else 0)⟩] },
           [NCall.log_attach kb FREELAN_LOG_PAYLOAD_TYPE_BOOLEAN
              (.as_boolean (if b then 1 else 0))]) ∧
    PyValue.isinstance_int (.bool b) = true ∧
    FREELAN_LOG_PAYLOAD_TYPE_BOOLEAN ≠ FREELAN_LOG_PAYLOAD_TYPE_INTEGER :=
  ⟨rfl, rfl, by decide⟩


/-- C10: converting a UTC datetime (microseconds since the epoch, on or
after the epoch) that is representable at the resolution of the
epoch-seconds arithmetic — its exact timestamp in seconds is a binary64
value, `IsRepr` — to a timestamp with `utc_datetime_to_utc_timestamp`
and back with `utc_timestamp_to_utc_datetime` yields the original
datetime, float rounding at every step included. -/
theorem utc_timestamp_roundtrip (dt : Int) (h0 : 0 ≤ dt)
    (hrep : IsRepr ((dt : ℚ) / 1000000)) :
    utc_timestamp_to_utc_datetime (utc_datetime_to_utc_timestamp dt) = dt := by
  set D : ℤ := dt / 1000000 with hDdef
  set r : ℤ := dt % 1000000 with hrdef
  have hdt : dt = 1000000 * D + r := by omega
  have hr0 : 0 ≤ r := by omega
  have hr6 : r < 1000000 := by omega
  set ts : ℚ := (dt : ℚ) / 1000000 with htsdef
  have hts : utc_datetime_to_utc_timestamp dt = ts := by
    rw [utc_datetime_to_utc_timestamp]
    exact roundDouble_eq_self hrep
  have hts0 : 0 ≤ ts := by
    rw [htsdef]
    apply div_nonneg (by exact_mod_cast h0) (by norm_num)
  have htsDr : ts = (D : ℚ) + (r : ℚ) / 1000000 := by
    rw [htsdef, hdt]
    push_cast
    ring
  have hfr0 : (0 : ℚ) ≤ (r : ℚ) / 1000000 :=
    div_nonneg (by exact_mod_cast hr0) (by norm_num)
  have hfr1 : (r : ℚ) / 1000000 < 1 := by
    rw [div_lt_one (by norm_num)]
    exact_mod_cast hr6
  have hfloor : ⌊ts⌋ = D := by
    rw [htsDr, add_comm, Int.floor_add_int]
    have hz : ⌊(r : ℚ) / 1000000⌋ = 0 := by
      rw [Int.floor_eq_zero_iff]
      exact Set.mem_Ico.mpr ⟨hfr0, hfr1⟩
    omega
  have h1 : ratTrunc ts = D := by rw [ratTrunc, if_pos hts0, hfloor]
  have hReprD : IsRepr ((D : ℤ) : ℚ) := by
    rw [← hfloor]
    exact (isRepr_floor_fract hrep hts0).1
  have h2 : roundDouble ((D : ℤ) : ℚ) = (D : ℚ) := roundDouble_eq_self hReprD
  have h3 : ts - (D : ℚ) = (r : ℚ) / 1000000 := by rw [htsDr]; ring
  have hReprF : IsRepr ((r : ℚ) / 1000000) := by
    rw [← h3]
    have := (isRepr_floor_fract hrep hts0).2
    rwa [hfloor] at this
  have h4 : roundDouble ((r : ℚ) / 1000000) = (r : ℚ) / 1000000 :=
    roundDouble_eq_self hReprF
  have h5 : (r : ℚ) / 1000000 * 1000000 = (r : ℚ) := by field_simp
  have h6 : roundDouble ((r : ℚ)) = (r : ℚ) :=
    roundDouble_eq_self (isRepr_intCast (by omega))
  have h7 : round_to_long (r : ℚ) = r := by
    rw [round_to_long, if_pos (by exact_mod_cast hr0)]
    have hhalf : IsRepr ((r : ℚ) + 1 / 2) :=
      ⟨2 * r + 1, -1, by push_cast; rw [zpow_neg, zpow_one]; ring, by omega⟩
    rw [roundDouble_eq_self hhalf, add_comm, Int.floor_add_int]
    norm_num
  rw [hts, utc_timestamp_to_utc_datetime]
  simp only [h1, h2, h3, h4, h5, h6, h7]
  rw [if_neg (by omega), if_neg (by omega)]
  omega

/-- Witness for C10 at 2016-02-18 16:24:19 UTC: a whole second, whose
timestamp 1455815059 s is exactly representable. -/
theorem utc_timestamp_roundtrip_witness :
    (0 : Int) ≤ 1455815059000000 ∧
    IsRepr (((1455815059000000 : Int) : ℚ) / 1000000) ∧
    utc_timestamp_to_utc_datetime
      (utc_datetime_to_utc_timestamp 1455815059000000) = 1455815059000000 :=
  ⟨by decide, ⟨1455815059, 0, by norm_num, by norm_num⟩,
    utc_timestamp_roundtrip 1455815059000000 (by decide)
      ⟨1455815059, 0, by norm_num, by norm_num⟩⟩
